import Mathlib

/-!
Verification development for the footage-bot session-recording pipeline.

The definitions below are a shallow embedding of the TypeScript source:
  - src/convex/posthogSync.ts   (fetchSnapshots: remote fetch and reconstruction)
  - src/src/pages/SessionReplay.tsx (playability gate and event filter)
  - src/convex/recordings.ts    (ingest and merge store)
  - src/unnamed/part_000        (client recorder scripts: batcher and transport)

JavaScript values flowing through the pipeline are modelled by the `Json`
inductive; JS numbers are modelled as `Int` (the pipeline only compares and
subtracts timestamps and type tags, which are integers in rrweb data).
Network I/O is modelled by passing the remote responses as explicit function
arguments; a failed or non-2xx fetch is `none`.
-/

/-- A parsed JSON value. Objects are association lists; since these model the
output of JSON.parse, object field names are assumed distinct (JSON.parse
collapses duplicate keys, keeping the last). -/
inductive Json where
  | null : Json
  | bool : Bool → Json
  | num : Int → Json
  | str : String → Json
  | arr : List Json → Json
  | obj : List (String × Json) → Json

/-- Field lookup in an association list (models JS property access on a
parsed object). -/
def lookupField : List (String × Json) → String → Option Json
  | [], _ => none
  | (k, v) :: rest, key => if k = key then some v else lookupField rest key

/-- JS property access `j.key`: defined on objects, `undefined` (`none`) on
arrays and primitives (arrays have no string-named own properties here). -/
def Json.get : Json → String → Option Json
  | .obj fields, key => lookupField fields key
  | _, _ => none

/-- JS truthiness of a value: null, false, 0 and "" are falsy; objects and
arrays (even empty) are truthy. -/
def jsTruthy : Json → Bool
  | .null => false
  | .bool b => b
  | .num n => !(n == 0)
  | .str s => !(s == "")
  | .arr _ => true
  | .obj _ => true

/-- Whether an optional field value is a number (JS `typeof x === 'number'`;
an absent field is `undefined`, not a number). -/
def isNum : Option Json → Bool
  | some (.num _) => true
  | _ => false

/-- The sort key used by fetchSnapshots: `(e.timestamp || 0)`.  A numeric
timestamp is its own key (note `0 || 0 === 0`); an absent or non-numeric
field is modelled as key 0, matching JS for absent, null and 0 values. -/
def tsKey (e : Json) : Int :=
  match e.get "timestamp" with
  | some (.num n) => n
  | _ => 0

/-! ## fetchSnapshots: NDJSON line parsing (src/convex/posthogSync.ts) -/

/-- Validity test applied to the event of a `[window_id, event]` tuple line:
`typeof event === 'object' && typeof event.type === 'number' &&
typeof event.timestamp === 'number'`.  `typeof null` is `'object'` in JS but
the subsequent property access on null throws; the exception is caught by the
per-line try/catch and yields no event, so null maps to false here. -/
def tupleEventValid (e : Json) : Bool :=
  match e with
  | .obj _ => isNum (e.get "type") && isNum (e.get "timestamp")
  | .arr _ => isNum (e.get "type") && isNum (e.get "timestamp")
  | _ => false

/-- Events pushed from a `{window_id, data: [...]}` line: each element with
`typeof event === 'object' && event.type !== undefined` is pushed.  A null
element satisfies the typeof test but throws on `event.type`; the per-line
catch then aborts the rest of the line while keeping events already pushed. -/
def dataEvents : List Json → List Json
  | [] => []
  | .null :: _ => []
  | e :: rest =>
    match e with
    | .obj _ => if (e.get "type").isSome then e :: dataEvents rest else dataEvents rest
    | .arr _ => if (e.get "type").isSome then e :: dataEvents rest else dataEvents rest
    | _ => dataEvents rest

/-- The bare-event fallback branch: `typeof parsed === 'object' &&
parsed.type !== undefined` pushes the parsed value itself. -/
def bareEvent (p : Json) : List Json :=
  if (p.get "type").isSome then [p] else []

/-- Events contributed by one successfully JSON-parsed NDJSON line of a
blob_v2 chunk response (the three accepted shapes, tried in source order):
tuple `[window_id, event]` (first element a string), windowed object
`{window_id, data: [...]}` (window_id truthy, data an array), then bare event
(any object or array with a defined `type`). Primitives and null contribute
nothing (property access on null throws and is caught per line). -/
def processLine (p : Json) : List Json :=
  match p with
  | .arr [.str _, e] => if tupleEventValid e then [e] else []
  | .arr _ => bareEvent p
  | .obj _ =>
    match p.get "window_id", p.get "data" with
    | some w, some (.arr xs) => if jsTruthy w then dataEvents xs else bareEvent p
    | _, _ => bareEvent p
  | _ => []

/-- Events of one line of a chunk response.  `none` models a line that failed
`JSON.parse` (the parse error is caught and the line skipped). -/
def lineEvents : Option Json → List Json
  | none => []
  | some p => processLine p

/-- Events of a whole blob_v2 chunk response body: the response text is split
on newlines and each line parsed and processed independently.  The list holds
the per-line parse results (blank lines are skipped by the source before
parsing and are not represented). -/
def linesEvents (lines : List (Option Json)) : List Json :=
  lines.flatMap lineEvents

/-! ## fetchSnapshots: blob_v2 key windowing and chunk fetching -/

/-- Ascending numeric sort of the blob keys, modelling
`blobKeys.sort((a, b) => a - b)` (stable, as Array.prototype.sort is). -/
def sortInt (keys : List Int) : List Int :=
  List.insertionSort (fun a b : Int => a ≤ b) keys

/-- The windowing loop `for (let i = 0; i < blobKeys.length; i += CHUNK_SIZE)`
with `CHUNK_SIZE = 20`: successive slices of at most 20 keys. -/
def chunksOf20 : List Int → List (List Int)
  | [] => []
  | x :: xs => ((x :: xs).take 20) :: chunksOf20 ((x :: xs).drop 20)
termination_by l => l.length
decreasing_by simp; omega

/-- The `start_blob_key`/`end_blob_key` pair of one windowed request:
`chunkKeys[0]` and `chunkKeys[chunkKeys.length - 1]`. Windows are nonempty by
construction; the defaults are never read. -/
def windowRange (ck : List Int) : Int × Int :=
  (ck.headD 0, ck.getLastD 0)

/-- Events obtained from one windowed blob_v2 fetch. The response is looked
up at the window's key range; `none` models a failed or non-ok fetch, which
the source logs and skips (the surrounding try/catch keeps the loop going). -/
def windowEvents (resp : Int × Int → Option (List (Option Json))) :
    List Int → List Json
  | [] => []
  | k :: ks =>
    match resp (windowRange (k :: ks)) with
    | none => []
    | some lines => linesEvents lines

/-- The blob_v2 fetch loop: each window's events are appended to the shared
`allEvents` accumulator in window order. -/
def blobV2Loop (resp : Int × Int → Option (List (Option Json)))
    (acc : List Json) : List (List Int) → List Json
  | [] => acc
  | ck :: rest => blobV2Loop resp (acc ++ windowEvents resp ck) rest

/-- All events gathered from the blob_v2 sources: keys sorted ascending,
split into windows of 20, each window fetched and parsed. -/
def blobV2Events (keys : List Int) (resp : Int × Int → Option (List (Option Json))) :
    List Json :=
  blobV2Loop resp [] (chunksOf20 (sortInt keys))

/-- The windowed requests the loop issues, as (start, end) key pairs. -/
def issuedWindows (keys : List Int) : List (Int × Int) :=
  (chunksOf20 (sortInt keys)).map windowRange

/-! ## fetchSnapshots: legacy blob sources and assembly -/

/-- Events pulled out of the per-window map of a legacy blob response or of
the top-level `snapshot_data_by_window_id` fallback: every own property whose
value is an array contributes its elements (for-in over an array visits its
elements, over primitives nothing array-valued). -/
def windowMapEntries : List Json → List Json
  | [] => []
  | .arr xs :: rest => xs ++ windowMapEntries rest
  | _ :: rest => windowMapEntries rest

/-- Events of one legacy blob response body: a bare array is pushed whole;
otherwise a truthy `snapshot_data_by_window_id` object (or array) has its
array-valued entries flattened in. Anything else (including a null body,
whose property access throws and is caught) contributes nothing. -/
def legacyEvents (j : Json) : List Json :=
  match j with
  | .arr xs => xs
  | .obj _ =>
    match j.get "snapshot_data_by_window_id" with
    | some (.obj fields) => windowMapEntries (fields.map Prod.snd)
    | some (.arr xs) => windowMapEntries xs
    | _ => []
  | _ => []

/-- One entry of the manifest's `sources` array. `blob_key` is carried as the
already-parsed integer key (the source applies `parseInt` to the JSON string;
a source without a usable key is modelled as `none`). -/
structure Source where
  source : String
  blob_key : Option Int

/-- The manifest response of the snapshots endpoint, in the three shapes the
source distinguishes: a `sources` array, a bare `snapshot_data_by_window_id`
map, or a bare array of events. -/
structure Manifest where
  sources : Option (List Source)
  snapshot_data_by_window_id : Option (List (String × Json))
  arrayData : Option (List Json)

/-- Final ordering step: `allEvents.sort((a, b) => (a.timestamp || 0) -
(b.timestamp || 0))`, modelled as a stable sort by `tsKey`. -/
def sortEvents (l : List Json) : List Json :=
  List.insertionSort (fun a b => tsKey a ≤ tsKey b) l

/-- The `data.sources` branch of fetchSnapshots: blob_v2 sources are windowed
and fetched first, then each legacy blob source with a key is fetched
individually; the concatenation is sorted by timestamp. -/
def sourcesBranch (srcs : List Source)
    (v2resp : Int × Int → Option (List (Option Json)))
    (blobresp : Int → Option Json) : List Json :=
  let blobV2Sources := srcs.filter (fun s => s.source = "blob_v2")
  let blobSources := srcs.filter (fun s => s.source = "blob")
  let v2Events :=
    if blobV2Sources.isEmpty then []
    else blobV2Events (blobV2Sources.filterMap Source.blob_key) v2resp
  let legacy := blobSources.flatMap (fun s =>
    match s.blob_key with
    | none => []
    | some k =>
      match blobresp k with
      | none => []
      | some body => legacyEvents body)
  sortEvents (v2Events ++ legacy)

/-- The fetchSnapshots action after the manifest fetch succeeded (a failed
manifest fetch throws before any of this runs).  Remote chunk responses are
supplied as functions; the branches mirror the source: a nonempty `sources`
array wins, then a `snapshot_data_by_window_id` map (sorted), then a bare
array returned as-is (unsorted), else the empty list. -/
def fetchSnapshots (m : Manifest)
    (v2resp : Int × Int → Option (List (Option Json)))
    (blobresp : Int → Option Json) : List Json :=
  match m.sources with
  | some (s :: ss) => sourcesBranch (s :: ss) v2resp blobresp
  | _ =>
    match m.snapshot_data_by_window_id with
    | some fields => sortEvents (windowMapEntries (fields.map Prod.snd))
    | none =>
      match m.arrayData with
      | some xs => xs
      | none => []

/-! ## SessionReplay playability gate and event filter
    (src/src/pages/SessionReplay.tsx, player-initialization effect) -/

/-- Strict-equality test `e.type === 2` (full snapshot). -/
def isType2 (e : Json) : Bool :=
  match e.get "type" with
  | some (.num n) => n == 2
  | _ => false

/-- The gate `snapshots.some((e) => e && e.type === 2)`. -/
def hasFullSnapshot (snapshots : List Json) : Bool :=
  snapshots.any (fun e => jsTruthy e && isType2 e)

/-- The event-level filter applied before handing events to the player:
`snapshots.filter((e) => e && typeof e.type === 'number' &&
typeof e.timestamp === 'number')`. -/
def validEvents (snapshots : List Json) : List Json :=
  snapshots.filter (fun e => jsTruthy e && isNum (e.get "type") && isNum (e.get "timestamp"))

/-- Outcome of the player-initialization effect: either the distinct
incomplete-recording condition (setError, no player), or a player built from
the filtered events. -/
inductive PlayResult where
  | incomplete : PlayResult
  | play : List Json → PlayResult

/-- The player-initialization logic on a nonempty snapshot list: if no full
snapshot is present, report the incomplete-recording condition and return;
otherwise filter out malformed events and start the player on the rest. -/
def playerInit (snapshots : List Json) : PlayResult :=
  if hasFullSnapshot snapshots then .play (validEvents snapshots) else .incomplete

/-! ## Ingest and merge store (src/convex/recordings.ts)

The Convex table is modelled as a list of records in insertion order;
`withIndex("by_sessionId").first()` returns the first record whose
sessionId matches, and `db.patch` replaces that record in place.  A mutation
that throws rolls the transaction back, leaving the table unchanged. -/

/-- The optional client metadata captured at creation. -/
structure RecMetadata where
  screenWidth : Int
  screenHeight : Int
  deviceType : Option String
  browser : Option String
  os : Option String

/-- The analysis payload saved by saveAnalysis (content opaque to the claims
about create/appendEvents). -/
structure RecAnalysis where
  overview : String
  userIntent : String
  painPoints : List String
  recommendations : List String
  sentiment : String
  engagementScore : Int
  analyzedAt : Int

/-- One row of the recordings table. -/
structure Recording where
  sessionId : String
  ipAddress : Option String
  events : List Json
  startTime : Int
  endTime : Option Int
  duration : Option Int
  pageUrl : String
  userAgent : String
  metadata : Option RecMetadata
  analyzed : Bool
  analysis : Option RecAnalysis

/-- Arguments of the create mutation. -/
structure CreateArgs where
  sessionId : String
  ipAddress : Option String
  events : List Json
  startTime : Int
  pageUrl : String
  userAgent : String
  metadata : Option RecMetadata

/-- The first record for a session id (`withIndex by_sessionId .first()`). -/
def dbFind (db : List Recording) (sid : String) : Option Recording :=
  db.find? (fun r => r.sessionId = sid)

/-- Number of records stored for a session id. -/
def countSid (db : List Recording) (sid : String) : Nat :=
  (db.filter (fun r => r.sessionId = sid)).length

/-- The create mutation at time `now` (`Date.now()`): if a record for the
sessionId exists, patch it, appending the events and recomputing endTime and
duration; otherwise insert a fresh record with analyzed = false and no
endTime, duration or analysis. -/
def Recordings.create (now : Int) (args : CreateArgs) : List Recording → List Recording
  | [] =>
    [{ sessionId := args.sessionId, ipAddress := args.ipAddress,
       events := args.events, startTime := args.startTime,
       endTime := none, duration := none, pageUrl := args.pageUrl,
       userAgent := args.userAgent, metadata := args.metadata,
       analyzed := false, analysis := none }]
  | r :: rest =>
    if r.sessionId = args.sessionId then
      { r with events := r.events ++ args.events,
               endTime := some now,
               duration := some (now - r.startTime) } :: rest
    else r :: Recordings.create now args rest

/-- The appendEvents mutation at time `now`: throws
"Recording not found: ..." when no record exists for the sessionId, otherwise
patches the first matching record. -/
def Recordings.appendEvents (now : Int) (sid : String) (events : List Json) :
    List Recording → Except String (List Recording)
  | [] => .error ("Recording not found: " ++ sid)
  | r :: rest =>
    if r.sessionId = sid then
      .ok ({ r with events := r.events ++ events,
                    endTime := some now,
                    duration := some (now - r.startTime) } :: rest)
    else
      match Recordings.appendEvents now sid events rest with
      | .error e => .error e
      | .ok rest2 => .ok (r :: rest2)

/-- Effect of an appendEvents call on the table: Convex rolls the transaction
back when the handler throws, so an error leaves the table unchanged. -/
def Recordings.runAppend (now : Int) (sid : String) (events : List Json)
    (db : List Recording) : List Recording :=
  match Recordings.appendEvents now sid events db with
  | .error _ => db
  | .ok db2 => db2

/-! ## Client batcher and delivery transport (src/unnamed/part_000)

Both recorder scripts share the discipline modelled here: `sendEvents`
returns immediately on an empty queue, otherwise drains the whole queue with
`events.splice(0, events.length)` into a batch and hands it to the transport;
on an observed delivery failure the batch is put back with
`events.unshift(...batch)`, in front of whatever was queued meanwhile.

The cooperative client scheduling is modelled as a small-step machine over
traces of operations: `record` (the rrweb emit callback), `flushStart` (any
flush trigger running the synchronous drain-and-send part of sendEvents) and
`complete` (the asynchronous completion of an in-flight send, successful or
failed).  `log` is the server-side sequence of delivered batches. -/

/-- State of one recorder instance plus the server-side log. -/
structure BatcherState (α : Type) where
  queue : List α
  inflight : List (List α)
  log : List (List α)

/-- One trace operation. -/
inductive BatcherOp (α : Type) where
  | record : α → BatcherOp α
  | flushStart : BatcherOp α
  | complete : Nat → Bool → BatcherOp α

/-- The step function: `record` appends to the pending queue; `flushStart`
is the synchronous part of sendEvents (early return on empty queue, else
splice the whole queue into a new in-flight batch); `complete i ok` settles
the i-th in-flight batch, delivering it on success and unshifting it back in
front of the current queue on failure. -/
def batcherStep (s : BatcherState α) : BatcherOp α → BatcherState α
  | .record e => { s with queue := s.queue ++ [e] }
  | .flushStart =>
    if s.queue.isEmpty then s
    else { s with queue := [], inflight := s.inflight ++ [s.queue] }
  | .complete i ok =>
    match s.inflight[i]? with
    | none => s
    | some batch =>
      { queue := if ok then s.queue else batch ++ s.queue,
        inflight := s.inflight.eraseIdx i,
        log := if ok then s.log ++ [batch] else s.log }

/-- Run a trace of operations from a state. -/
def batcherRun (s : BatcherState α) : List (BatcherOp α) → BatcherState α
  | [] => s
  | op :: ops => batcherRun (batcherStep s op) ops

/-- The fresh recorder state: nothing queued, in flight or delivered. -/
def batcherInit : BatcherState α := ⟨[], [], []⟩

/-- The events recorded along a trace, in order. -/
def recordedEvents : List (BatcherOp α) → List α
  | [] => []
  | .record e :: ops => e :: recordedEvents ops
  | _ :: ops => recordedEvents ops

/-- Occurrences of an event anywhere in the client (queue or in-flight). -/
def clientCount [DecidableEq α] (s : BatcherState α) (e : α) : Nat :=
  s.queue.count e + (s.inflight.map (fun b => b.count e)).sum

/-- Occurrences of an event in the delivered server-side log. -/
def logCount [DecidableEq α] (s : BatcherState α) (e : α) : Nat :=
  (s.log.map (fun b => b.count e)).sum

/-- The retry scenario of the at-least-once property: record a batch worth
of events, flush, have the send fail once, flush again, succeed. -/
def retryOps (b : List α) : List (BatcherOp α) :=
  b.map .record ++ [.flushStart, .complete 0 false, .flushStart, .complete 0 true]

/-- The scenario trace for a whole sequence of batches, each failing exactly
once and then succeeding. -/
def retryTrace (bs : List (List α)) : List (BatcherOp α) :=
  (bs.map retryOps).flatten

/-! ### The v1 recorder's transport (first script of src/unnamed/part_000)

The first script sends with `navigator.sendBeacon` when available, falling
back to `fetch(..., { keepalive: true }).catch(requeue)`.  The four outcomes
the client can see in one synchronous round: the beacon hand-off is refused
(requeue), the beacon is queued (fire and forget), the fallback fetch rejects
with a network error (requeue in .catch), or the fallback fetch resolves with
a response whose status is never inspected. -/

inductive V1Outcome where
  | beaconRefused : V1Outcome
  | beaconQueued : V1Outcome
  | fetchNetError : V1Outcome
  | fetchResponse : Bool → V1Outcome

/-- The queue after one v1 sendEvents call with the given outcome (no events
recorded during the call): empty queue returns early; a refused beacon or a
fetch network error unshifts the batch back; a queued beacon or any resolved
fetch response, ok or not, leaves the batch unqueued. -/
def sendEventsV1 (queue : List α) (outcome : V1Outcome) : List α :=
  if queue.isEmpty then queue
  else
    match outcome with
    | .beaconRefused => queue
    | .beaconQueued => []
    | .fetchNetError => queue
    | .fetchResponse _ => []

/-- Whether the server stored the batch under the given outcome: the ingest
endpoint (src/convex/http.ts) stores it exactly when it replies 2xx, so a
resolved fetch response with ok=false means the batch was not stored; a
queued beacon is delivered (fire-and-forget success); a refused beacon or a
network error delivers nothing. -/
def v1Delivered (outcome : V1Outcome) : Bool :=
  match outcome with
  | .beaconQueued => true
  | .fetchResponse ok => ok
  | _ => false

/-! ## Lemmas -/

instance : IsTotal Json (fun a b => tsKey a ≤ tsKey b) :=
  ⟨fun a b => le_total (tsKey a) (tsKey b)⟩

instance : IsTrans Json (fun a b => tsKey a ≤ tsKey b) :=
  ⟨fun _ _ _ h h2 => le_trans h h2⟩

theorem sortEvents_sorted (l : List Json) :
    List.Sorted (fun a b => tsKey a ≤ tsKey b) (sortEvents l) :=
  List.sorted_insertionSort _ l

theorem sortEvents_perm (l : List Json) : (sortEvents l).Perm l :=
  List.perm_insertionSort _ l

theorem sortInt_sorted (l : List Int) : List.Sorted (fun a b : Int => a ≤ b) (sortInt l) :=
  List.sorted_insertionSort _ l

theorem sortInt_perm (l : List Int) : (sortInt l).Perm l :=
  List.perm_insertionSort _ l

theorem chunksOf20_length (l : List Int) :
    (chunksOf20 l).length = (l.length + 19) / 20 := by
  induction l using chunksOf20.induct with
  | case1 => simp [chunksOf20]
  | case2 x xs ih =>
    rw [chunksOf20]
    simp only [List.length_cons, List.length_drop] at ih ⊢
    omega

theorem chunksOf20_getElem (l : List Int) (i : Nat) (hi : i < (chunksOf20 l).length) :
    (chunksOf20 l)[i]? = some ((l.drop (20 * i)).take 20) := by
  induction l using chunksOf20.induct generalizing i with
  | case1 => simp [chunksOf20] at hi
  | case2 x xs ih =>
    rw [chunksOf20] at hi ⊢
    cases i with
    | zero => simp
    | succ j =>
      simp only [List.length_cons, Nat.succ_lt_succ_iff] at hi
      have h2 := ih j hi
      simp only [List.getElem?_cons_succ]
      rw [h2, List.drop_drop, Nat.mul_succ, Nat.add_comm]

theorem blobV2Loop_eq (resp : Int × Int → Option (List (Option Json)))
    (acc : List Json) (chs : List (List Int)) :
    blobV2Loop resp acc chs = acc ++ (chs.map (windowEvents resp)).flatten := by
  induction chs generalizing acc with
  | nil => simp [blobV2Loop]
  | cons ck rest ih => simp [blobV2Loop, ih, List.append_assoc]

theorem windowEvents_override (resp : Int × Int → Option (List (Option Json)))
    (w : Int × Int) (ck : List Int) :
    windowEvents (fun u => if u = w then none else resp u) ck =
      if windowRange ck = w then [] else windowEvents resp ck := by
  cases ck with
  | nil => by_cases h : windowRange ([] : List Int) = w <;> simp [windowEvents, h]
  | cons k ks =>
    by_cases h : windowRange (k :: ks) = w <;> simp [windowEvents, h]

/-! ## Claims -/

/-- C1: for every manifest whose sources include chunk references, the event
list returned by fetchSnapshots is globally sorted by timestamp ascending
(adjacent events non-decreasing in the timestamp key), regardless of the
contents and arrival order of the chunk and window responses. -/
theorem fetchSnapshots_sorted (m : Manifest)
    (v2resp : Int × Int → Option (List (Option Json)))
    (blobresp : Int → Option Json) (srcs : List Source)
    (hs : m.sources = some srcs) (hne : srcs ≠ [])
    (hchunk : ∃ s ∈ srcs, s.source = "blob_v2" ∨ s.source = "blob") :
    List.Sorted (fun a b => tsKey a ≤ tsKey b) (fetchSnapshots m v2resp blobresp) := by
  obtain ⟨msrc, mwin, marr⟩ := m
  simp only at hs
  subst hs
  cases srcs with
  | nil => exact absurd rfl hne
  | cons s ss => exact sortEvents_sorted _

def c1Manifest : Manifest :=
  ⟨some [⟨"blob_v2", some 3⟩, ⟨"blob_v2", some 1⟩], none, none⟩

def c1Resp : Int × Int → Option (List (Option Json)) := fun _ =>
  some [some (Json.arr [Json.str "w",
          Json.obj [("type", Json.num 3), ("timestamp", Json.num 50)]]),
        some (Json.arr [Json.str "w",
          Json.obj [("type", Json.num 2), ("timestamp", Json.num 10)]])]

/-- Witness for C1 at a concrete two-chunk manifest with out-of-order
responses. -/
theorem fetchSnapshots_sorted_witness :
    c1Manifest.sources = some [⟨"blob_v2", some 3⟩, ⟨"blob_v2", some 1⟩] ∧
    List.Sorted (fun a b => tsKey a ≤ tsKey b)
      (fetchSnapshots c1Manifest c1Resp (fun _ => none)) :=
  ⟨rfl, fetchSnapshots_sorted c1Manifest c1Resp (fun _ => none) _ rfl
    (by simp) ⟨⟨"blob_v2", some 3⟩, List.mem_cons_self _ _, Or.inl rfl⟩⟩

/-- C2: for n blob_v2 chunk keys the Reconstructor sorts the keys ascending
and issues exactly ceil(n/20) windowed fetches; the i-th window is the slice
of the sorted keys from position 20i of length at most 20, and its request
range is that slice's first and last key; failing one window's fetch nullifies
exactly that window's contribution and leaves every other window's events in
place. -/
theorem chunk_windowing (keys : List Int) (hn : 1 ≤ keys.length) :
    List.Sorted (fun a b : Int => a ≤ b) (sortInt keys) ∧
    (sortInt keys).Perm keys ∧
    (issuedWindows keys).length = (keys.length + 19) / 20 ∧
    (∀ i, i < (issuedWindows keys).length →
      (chunksOf20 (sortInt keys))[i]? = some (((sortInt keys).drop (20 * i)).take 20) ∧
      (issuedWindows keys)[i]? = some (windowRange (((sortInt keys).drop (20 * i)).take 20))) ∧
    (∀ resp w, blobV2Events keys (fun u => if u = w then none else resp u) =
      ((chunksOf20 (sortInt keys)).map (fun ck =>
        if windowRange ck = w then [] else windowEvents resp ck)).flatten) := by
  refine ⟨sortInt_sorted keys, sortInt_perm keys, ?_, ?_, ?_⟩
  · rw [issuedWindows, List.length_map, chunksOf20_length, (sortInt_perm keys).length_eq]
  · intro i hi
    rw [issuedWindows, List.length_map] at hi
    have h := chunksOf20_getElem (sortInt keys) i hi
    exact ⟨h, by rw [issuedWindows, List.getElem?_map, h]; rfl⟩
  · intro resp w
    rw [blobV2Events, blobV2Loop_eq, List.nil_append]
    congr 1
    exact List.map_congr_left (fun ck _ => windowEvents_override resp w ck)

def c2Keys : List Int := (List.range 45).map Int.ofNat

/-- Witness for C2: 45 keys give exactly 3 windowed fetches. -/
theorem chunk_windowing_witness :
    1 ≤ c2Keys.length ∧ (issuedWindows c2Keys).length = 3 := by
  have h := chunk_windowing c2Keys (by decide)
  refine ⟨by decide, ?_⟩
  rw [h.2.2.1]
  decide

/-- The spec's malformed-drop scenario line: `{"type":"x"}`. -/
def badTypeLine : Json := Json.obj [("type", Json.str "x")]

/-- C3 counterexample: the line `{"type":"x"}` parses as a bare event object
and, although its type is not numeric, it IS added to the reconstructed
result (one event, not zero): the numeric-type/timestamp validation is
applied only to the tuple shape, not to the bare-event shape. -/
theorem malformed_line_cex :
    processLine badTypeLine = [badTypeLine] ∧
    linesEvents [some badTypeLine] = [badTypeLine] ∧
    isNum (badTypeLine.get "type") = false ∧
    processLine badTypeLine ≠ [] :=
  ⟨rfl, rfl, rfl, fun h => List.cons_ne_nil badTypeLine [] h⟩

theorem dataEvents_sound :
    ∀ xs : List Json, ∀ e ∈ dataEvents xs, e ∈ xs ∧ (e.get "type").isSome = true := by
  intro xs
  induction xs with
  | nil => intro e he; simp [dataEvents] at he
  | cons hd tl ih =>
    intro e he
    cases hd with
    | null => simp [dataEvents] at he
    | obj fields =>
      simp only [dataEvents] at he
      split at he
      next hc =>
        rcases List.mem_cons.mp he with rfl | hmem
        · exact ⟨List.mem_cons_self _ _, hc⟩
        · obtain ⟨h1, h2⟩ := ih e hmem
          exact ⟨List.mem_cons_of_mem _ h1, h2⟩
      next =>
        obtain ⟨h1, h2⟩ := ih e he
        exact ⟨List.mem_cons_of_mem _ h1, h2⟩
    | arr elems =>
      simp only [dataEvents] at he
      split at he
      next hc =>
        rcases List.mem_cons.mp he with rfl | hmem
        · exact ⟨List.mem_cons_self _ _, hc⟩
        · obtain ⟨h1, h2⟩ := ih e hmem
          exact ⟨List.mem_cons_of_mem _ h1, h2⟩
      next =>
        obtain ⟨h1, h2⟩ := ih e he
        exact ⟨List.mem_cons_of_mem _ h1, h2⟩
    | bool b =>
      obtain ⟨h1, h2⟩ := ih e (by simpa [dataEvents] using he)
      exact ⟨List.mem_cons_of_mem _ h1, h2⟩
    | num n =>
      obtain ⟨h1, h2⟩ := ih e (by simpa [dataEvents] using he)
      exact ⟨List.mem_cons_of_mem _ h1, h2⟩
    | str s =>
      obtain ⟨h1, h2⟩ := ih e (by simpa [dataEvents] using he)
      exact ⟨List.mem_cons_of_mem _ h1, h2⟩

/-- C3 amended: a line that fails JSON parsing contributes no event, raises
no uncaught exception, and the surrounding lines are still processed; for
the tuple shape an event failing the numeric type/timestamp validation is
dropped; for the bare-event shape (no window_id field) an event is dropped
exactly when its type field is absent — a present but non-numeric type is
accepted; for the windowed-object shape (truthy window_id, array data) the
line's events come from the data array, every accepted event has a defined
(not necessarily numeric) type field, an element with an absent type field
contributes nothing, an element with a defined type is accepted when
reached, and a null element aborts the remainder of that line (events
already pushed are kept) with no uncaught exception. -/
theorem ndjson_line_tolerance :
    (∀ pre post : List (Option Json),
      linesEvents (pre ++ none :: post) = linesEvents pre ++ linesEvents post) ∧
    (∀ w e, tupleEventValid e = false →
      processLine (Json.arr [Json.str w, e]) = []) ∧
    (∀ fields, (Json.obj fields).get "window_id" = none →
      (Json.obj fields).get "type" = none →
      processLine (Json.obj fields) = []) ∧
    (∀ fields, (Json.obj fields).get "window_id" = none →
      ((Json.obj fields).get "type").isSome →
      processLine (Json.obj fields) = [Json.obj fields]) ∧
    (∀ fields w xs, (Json.obj fields).get "window_id" = some w →
      jsTruthy w = true →
      (Json.obj fields).get "data" = some (Json.arr xs) →
      processLine (Json.obj fields) = dataEvents xs) ∧
    (∀ xs : List Json, ∀ e ∈ dataEvents xs, e ∈ xs ∧ (e.get "type").isSome = true) ∧
    (∀ fields rest, (Json.obj fields).get "type" = none →
      dataEvents (Json.obj fields :: rest) = dataEvents rest) ∧
    (∀ fields rest, ((Json.obj fields).get "type").isSome →
      dataEvents (Json.obj fields :: rest) = Json.obj fields :: dataEvents rest) ∧
    (∀ post, dataEvents (Json.null :: post) = []) := by
  refine ⟨?_, ?_, ?_, ?_, ?_, dataEvents_sound, ?_, ?_, fun post => rfl⟩
  · intro pre post
    simp [linesEvents, lineEvents]
  · intro w e h
    simp [processLine, h]
  · intro fields h1 h2
    simp only [Json.get] at h1 h2
    simp [processLine, Json.get, h1, h2, bareEvent]
  · intro fields h1 h2
    simp only [Json.get] at h1 h2
    simp [processLine, Json.get, h1, bareEvent, h2]
  · intro fields w xs h1 htr h3
    simp only [Json.get] at h1 h3
    simp [processLine, Json.get, h1, h3, htr]
  · intro fields rest h
    simp only [Json.get] at h
    simp [dataEvents, Json.get, h]
  · intro fields rest h
    simp only [Json.get] at h
    simp [dataEvents, Json.get, h]

/-- The data array of the concrete windowed line used by the witness: a
valid element, then a null that aborts the line, then another element. -/
def c3DataArr : List Json :=
  [Json.obj [("type", Json.num 3)], Json.null, Json.obj [("type", Json.num 4)]]

/-- Witness for C3's amended statement at concrete lines, including a
windowed-object line whose data array holds an aborting null. -/
theorem ndjson_line_tolerance_witness :
    linesEvents [some badTypeLine, none, some badTypeLine] =
      linesEvents [some badTypeLine] ++ linesEvents [some badTypeLine] ∧
    processLine (Json.arr [Json.str "w", Json.obj [("type", Json.str "x")]]) = [] ∧
    processLine (Json.obj [("other", Json.num 1)]) = [] ∧
    processLine badTypeLine = [badTypeLine] ∧
    processLine (Json.obj [("window_id", Json.str "w"), ("data", Json.arr c3DataArr)]) =
      dataEvents c3DataArr ∧
    dataEvents c3DataArr = [Json.obj [("type", Json.num 3)]] ∧
    (Json.obj [("type", Json.num 3)]) ∈ c3DataArr := by
  obtain ⟨h1, h2, h3, h4, h5, h6, h7, h8, h9⟩ := ndjson_line_tolerance
  refine ⟨h1 [some badTypeLine] [some badTypeLine],
          h2 "w" (Json.obj [("type", Json.str "x")]) rfl,
          h3 [("other", Json.num 1)] rfl rfl,
          h4 [("type", Json.str "x")] rfl rfl,
          h5 [("window_id", Json.str "w"), ("data", Json.arr c3DataArr)]
            (Json.str "w") c3DataArr rfl rfl rfl,
          ?_, ?_⟩
  · rw [show c3DataArr = Json.obj [("type", Json.num 3)] :: [Json.null, Json.obj [("type", Json.num 4)]] from rfl,
        h8 [("type", Json.num 3)] _ rfl, h9]
  · exact (h6 c3DataArr _ (by rw [show c3DataArr = Json.obj [("type", Json.num 3)] :: [Json.null, Json.obj [("type", Json.num 4)]] from rfl, h8 [("type", Json.num 3)] _ rfl, h9]; exact List.mem_cons_self _ _)).1

theorem countSid_cons_ne (r : Recording) (rest : List Recording) (sid : String)
    (h : ¬ r.sessionId = sid) : countSid (r :: rest) sid = countSid rest sid := by
  simp [countSid, List.filter_cons, h]

theorem countSid_cons_eq (r : Recording) (rest : List Recording) (sid : String)
    (h : r.sessionId = sid) : countSid (r :: rest) sid = countSid rest sid + 1 := by
  simp [countSid, List.filter_cons, h]

theorem dbFind_cons_ne (r : Recording) (rest : List Recording) (sid : String)
    (h : ¬ r.sessionId = sid) : dbFind (r :: rest) sid = dbFind rest sid := by
  simp [dbFind, List.find?_cons, h]

theorem dbFind_cons_eq (r : Recording) (rest : List Recording) (sid : String)
    (h : r.sessionId = sid) : dbFind (r :: rest) sid = some r := by
  simp [dbFind, List.find?_cons, h]

theorem create_cons_ne (now : Int) (args : CreateArgs) (r : Recording)
    (rest : List Recording) (h : ¬ r.sessionId = args.sessionId) :
    Recordings.create now args (r :: rest) = r :: Recordings.create now args rest := by
  simp [Recordings.create, h]

/-- C4: calling create a second time with the same sessionId (starting from a
table with no record for it) leaves exactly one record for that sessionId,
whose event list is the first call's events followed by the second call's. -/
theorem create_idempotent (db : List Recording) (t1 t2 : Int) (a1 a2 : CreateArgs)
    (hsid : a2.sessionId = a1.sessionId) (h0 : countSid db a1.sessionId = 0) :
    countSid (Recordings.create t2 a2 (Recordings.create t1 a1 db)) a1.sessionId = 1 ∧
    ∃ r, dbFind (Recordings.create t2 a2 (Recordings.create t1 a1 db)) a1.sessionId = some r ∧
      r.events = a1.events ++ a2.events := by
  induction db with
  | nil =>
    have hstep : Recordings.create t2 a2 (Recordings.create t1 a1 []) =
        [{ sessionId := a1.sessionId, ipAddress := a1.ipAddress,
           events := a1.events ++ a2.events, startTime := a1.startTime,
           endTime := some t2, duration := some (t2 - a1.startTime),
           pageUrl := a1.pageUrl, userAgent := a1.userAgent,
           metadata := a1.metadata, analyzed := false, analysis := none }] := by
      simp [Recordings.create, hsid]
    rw [hstep]
    exact ⟨by simp [countSid], ⟨_, dbFind_cons_eq _ [] a1.sessionId rfl, rfl⟩⟩
  | cons r rest ih =>
    by_cases hr : r.sessionId = a1.sessionId
    · rw [countSid_cons_eq r rest _ hr] at h0
      omega
    · have h0r : countSid rest a1.sessionId = 0 := by
        rwa [countSid_cons_ne r rest _ hr] at h0
      have hr2 : ¬ r.sessionId = a2.sessionId := fun h => hr (h.trans hsid)
      rw [create_cons_ne t1 a1 r rest (fun h => hr h),
          create_cons_ne t2 a2 r _ hr2,
          countSid_cons_ne r _ _ hr, dbFind_cons_ne r _ _ hr]
      exact ih h0r

def c4Args1 : CreateArgs :=
  ⟨"s1", none, [Json.num 1, Json.num 2], 100, "http://a", "ua", none⟩

def c4Args2 : CreateArgs :=
  ⟨"s1", none, [Json.num 3], 200, "http://b", "ub", none⟩

/-- Witness for C4 on an initially empty table. -/
theorem create_idempotent_witness :
    countSid (Recordings.create 9 c4Args2 (Recordings.create 5 c4Args1 [])) "s1" = 1 ∧
    ∃ r, dbFind (Recordings.create 9 c4Args2 (Recordings.create 5 c4Args1 [])) "s1" = some r ∧
      r.events = c4Args1.events ++ c4Args2.events :=
  create_idempotent [] 5 9 c4Args1 c4Args2 rfl rfl

/-- C5: appendEvents throws a not-found error exactly when no record exists
for the sessionId, and the rolled-back transaction leaves the table
unchanged; when a record exists the call succeeds and the first matching
record afterwards carries the appended events with endTime and duration
recomputed from the call time and the record's startTime. -/
theorem appendEvents_spec (db : List Recording) (now : Int) (sid : String)
    (evs : List Json) :
    (dbFind db sid = none →
      Recordings.appendEvents now sid evs db =
        .error ("Recording not found: " ++ sid) ∧
      Recordings.runAppend now sid evs db = db) ∧
    (∀ r, dbFind db sid = some r →
      ∃ db2, Recordings.appendEvents now sid evs db = .ok db2 ∧
        dbFind db2 sid = some { r with events := r.events ++ evs,
                                       endTime := some now,
                                       duration := some (now - r.startTime) }) := by
  induction db with
  | nil =>
    refine ⟨fun _ => ⟨rfl, rfl⟩, fun r hr => ?_⟩
    simp [dbFind] at hr
  | cons r0 rest ih =>
    by_cases hr : r0.sessionId = sid
    · refine ⟨fun hnone => ?_, fun r hsome => ?_⟩
      · rw [dbFind_cons_eq r0 rest sid hr] at hnone
        exact Option.noConfusion hnone
      · rw [dbFind_cons_eq r0 rest sid hr] at hsome
        cases hsome
        refine ⟨{ r0 with events := r0.events ++ evs, endTime := some now, duration := some (now - r0.startTime) } :: rest, ?_, ?_⟩
        · simp [Recordings.appendEvents, hr]
        · exact dbFind_cons_eq _ rest sid hr
    · have hstep : Recordings.appendEvents now sid evs (r0 :: rest) =
          match Recordings.appendEvents now sid evs rest with
          | .error e => .error e
          | .ok rest2 => .ok (r0 :: rest2) := by
        simp [Recordings.appendEvents, hr]
      refine ⟨fun hnone => ?_, fun r hsome => ?_⟩
      · rw [dbFind_cons_ne r0 rest sid hr] at hnone
        obtain ⟨herr, -⟩ := ih.1 hnone
        refine ⟨by rw [hstep, herr], ?_⟩
        rw [Recordings.runAppend, hstep, herr]
      · rw [dbFind_cons_ne r0 rest sid hr] at hsome
        obtain ⟨db2, hok, hfind⟩ := ih.2 r hsome
        refine ⟨r0 :: db2, by rw [hstep, hok], ?_⟩
        rw [dbFind_cons_ne r0 db2 sid hr]
        exact hfind

def c5Rec : Recording :=
  ⟨"a", none, [Json.num 1], 50, none, none, "http://a", "ua", none, false, none⟩

/-- Witness for C5: not-found on the empty table, append on a one-row table. -/
theorem appendEvents_spec_witness :
    (Recordings.appendEvents 5 "s" [] ([] : List Recording) =
      .error ("Recording not found: " ++ "s") ∧
     Recordings.runAppend 5 "s" [] ([] : List Recording) = []) ∧
    (∃ db2, Recordings.appendEvents 80 "a" [Json.num 2] [c5Rec] = .ok db2 ∧
      dbFind db2 "a" = some { c5Rec with events := c5Rec.events ++ [Json.num 2],
                                         endTime := some 80,
                                         duration := some (80 - c5Rec.startTime) }) :=
  ⟨(appendEvents_spec [] 5 "s" []).1 rfl,
   (appendEvents_spec [c5Rec] 80 "a" [Json.num 2]).2 c5Rec rfl⟩

/-- C10: when create takes the existing-record path, only events, endTime and
duration change; sessionId, ipAddress, startTime, pageUrl, userAgent,
metadata, analyzed and analysis of the record are untouched. -/
theorem create_existing_frame (db : List Recording) (now : Int) (args : CreateArgs)
    (r : Recording) (hf : dbFind db args.sessionId = some r) :
    ∃ r2, dbFind (Recordings.create now args db) args.sessionId = some r2 ∧
      r2.events = r.events ++ args.events ∧
      r2.endTime = some now ∧
      r2.duration = some (now - r.startTime) ∧
      r2.sessionId = r.sessionId ∧
      r2.ipAddress = r.ipAddress ∧
      r2.startTime = r.startTime ∧
      r2.pageUrl = r.pageUrl ∧
      r2.userAgent = r.userAgent ∧
      r2.metadata = r.metadata ∧
      r2.analyzed = r.analyzed ∧
      r2.analysis = r.analysis := by
  induction db with
  | nil => simp [dbFind] at hf
  | cons r0 rest ih =>
    by_cases hr : r0.sessionId = args.sessionId
    · rw [dbFind_cons_eq r0 rest _ hr] at hf
      cases hf
      refine ⟨{ r with events := r.events ++ args.events, endTime := some now, duration := some (now - r.startTime) }, ?_, rfl, rfl, rfl, rfl, rfl, rfl, rfl, rfl, rfl, rfl, rfl⟩
      rw [show Recordings.create now args (r :: rest) =
            { r with events := r.events ++ args.events, endTime := some now, duration := some (now - r.startTime) } :: rest from by
          simp [Recordings.create, hr]]
      exact dbFind_cons_eq _ rest _ hr
    · rw [dbFind_cons_ne r0 rest _ hr] at hf
      rw [create_cons_ne now args r0 rest hr, dbFind_cons_ne r0 _ _ hr]
      exact ih hf

/-- Witness for C10 on a one-row table. -/
theorem create_existing_frame_witness :
    ∃ r2, dbFind (Recordings.create 90 { c4Args2 with sessionId := "a" } [c5Rec]) "a" = some r2 ∧
      r2.events = c5Rec.events ++ c4Args2.events ∧
      r2.endTime = some 90 ∧
      r2.duration = some (90 - c5Rec.startTime) ∧
      r2.sessionId = c5Rec.sessionId ∧
      r2.ipAddress = c5Rec.ipAddress ∧
      r2.startTime = c5Rec.startTime ∧
      r2.pageUrl = c5Rec.pageUrl ∧
      r2.userAgent = c5Rec.userAgent ∧
      r2.metadata = c5Rec.metadata ∧
      r2.analyzed = c5Rec.analyzed ∧
      r2.analysis = c5Rec.analysis :=
  create_existing_frame [c5Rec] 90 { c4Args2 with sessionId := "a" } c5Rec rfl

theorem sum_count_eraseIdx [DecidableEq α] (l : List (List α)) (i : Nat) (b : List α)
    (h : l[i]? = some b) (e : α) :
    (((l.eraseIdx i).map (fun c => c.count e)).sum + b.count e =
      (l.map (fun c => c.count e)).sum) := by
  induction l generalizing i with
  | nil => simp at h
  | cons hd tl ih =>
    cases i with
    | zero =>
      simp only [List.getElem?_cons_zero, Option.some_inj] at h
      subst h
      simp [List.eraseIdx, Nat.add_comm]
    | succ j =>
      simp only [List.getElem?_cons_succ] at h
      have := ih j h
      simp only [List.eraseIdx, List.map_cons, List.sum_cons]
      omega

theorem batcher_conservation [DecidableEq α] (ops : List (BatcherOp α))
    (s : BatcherState α) (e : α) :
    clientCount (batcherRun s ops) e + logCount (batcherRun s ops) e =
      clientCount s e + logCount s e + (recordedEvents ops).count e := by
  induction ops generalizing s with
  | nil => simp [batcherRun, recordedEvents]
  | cons op rest ih =>
    rw [batcherRun, ih (batcherStep s op)]
    have hstep : clientCount (batcherStep s op) e + logCount (batcherStep s op) e =
        clientCount s e + logCount s e + (recordedEvents [op]).count e := by
      cases op with
      | record e2 =>
        simp [batcherStep, clientCount, logCount, recordedEvents,
              List.count_append, List.count_cons, List.count_nil]
        split <;> omega
      | flushStart =>
        by_cases hq : s.queue.isEmpty
        · simp [batcherStep, hq, recordedEvents]
        · simp [batcherStep, hq, clientCount, logCount, recordedEvents,
                List.map_append, List.sum_append]
          omega
      | complete i ok =>
        cases hi : s.inflight[i]? with
        | none => simp [batcherStep, hi, recordedEvents]
        | some b =>
          have hsum := sum_count_eraseIdx s.inflight i b hi e
          cases ok <;>
            simp [batcherStep, hi, clientCount, logCount, recordedEvents,
                  List.count_append, List.map_append, List.sum_append] <;>
            omega
    have hrec : (recordedEvents (op :: rest)).count e =
        (recordedEvents [op]).count e + (recordedEvents rest).count e := by
      cases op <;> simp [recordedEvents, List.count_cons] <;> split <;> omega
    omega

/-- C6: flushing with an empty queue is a no-op that starts no send; flushing
a nonempty queue atomically drains the whole queue into one in-flight batch
(so later records cannot join it); and along any trace an event recorded at
most once is delivered to the server at most once, no matter how flush
triggers and completions interleave. -/
theorem flush_atomic_drain {α : Type} [DecidableEq α] :
    (∀ s : BatcherState α, s.queue = [] → batcherStep s .flushStart = s) ∧
    (∀ s : BatcherState α, s.queue ≠ [] →
      (batcherStep s .flushStart).queue = [] ∧
      (batcherStep s .flushStart).inflight = s.inflight ++ [s.queue] ∧
      (batcherStep s .flushStart).log = s.log) ∧
    (∀ (ops : List (BatcherOp α)) (e : α),
      (recordedEvents ops).count e ≤ 1 →
      logCount (batcherRun batcherInit ops) e ≤ 1) := by
  refine ⟨?_, ?_, ?_⟩
  · intro s hq
    simp [batcherStep, hq]
  · intro s hq
    have : s.queue.isEmpty = false := by
      cases hqq : s.queue with
      | nil => exact absurd hqq hq
      | cons a l => simp [hqq]
    simp [batcherStep, this]
  · intro ops e h
    have hc := batcher_conservation ops (batcherInit : BatcherState α) e
    have hzero : clientCount (batcherInit : BatcherState α) e = 0 ∧
        logCount (batcherInit : BatcherState α) e = 0 := by
      simp [batcherInit, clientCount, logCount]
    omega

/-- Witness for C6: empty-queue no-op, a concrete drain, and a one-event
trace delivering the event once. -/
theorem flush_atomic_drain_witness :
    batcherStep (⟨[], [[5]], [[6]]⟩ : BatcherState Nat) .flushStart = ⟨[], [[5]], [[6]]⟩ ∧
    (batcherStep (⟨[1, 2], [], []⟩ : BatcherState Nat) .flushStart).inflight = [[1, 2]] ∧
    logCount (batcherRun (batcherInit : BatcherState Nat)
      [.record 1, .flushStart, .complete 0 true]) 1 ≤ 1 :=
  ⟨flush_atomic_drain.1 ⟨[], [[5]], [[6]]⟩ rfl,
   ((flush_atomic_drain.2.1 ⟨[1, 2], [], []⟩ (by simp)).2.1).trans (by simp),
   flush_atomic_drain.2.2 [.record 1, .flushStart, .complete 0 true] 1 (by decide)⟩

theorem batcherRun_append (s : BatcherState α) (ops1 ops2 : List (BatcherOp α)) :
    batcherRun s (ops1 ++ ops2) = batcherRun (batcherRun s ops1) ops2 := by
  induction ops1 generalizing s with
  | nil => rfl
  | cons op rest ih => rw [List.cons_append, batcherRun, batcherRun, ih]

theorem batcherRun_records (q es : List α) (inf log : List (List α)) :
    batcherRun ⟨q, inf, log⟩ (es.map .record) = ⟨q ++ es, inf, log⟩ := by
  induction es generalizing q with
  | nil => simp [batcherRun]
  | cons e es ih =>
    rw [List.map_cons, batcherRun, batcherStep]
    simp only
    rw [ih (q ++ [e])]
    simp

theorem retryOps_run (b : List α) (log : List (List α)) :
    batcherRun ⟨[], [], log⟩ (retryOps b) =
      ⟨[], [], log ++ if b.isEmpty then [] else [b]⟩ := by
  rw [retryOps, batcherRun_append, batcherRun_records]
  cases b with
  | nil => simp [batcherRun, batcherStep]
  | cons x xs => simp [batcherRun, batcherStep, List.eraseIdx]

theorem retryTrace_run (bs : List (List α)) (log : List (List α)) :
    batcherRun ⟨[], [], log⟩ (retryTrace bs) =
      ⟨[], [], log ++ bs.filter (fun b => !b.isEmpty)⟩ := by
  induction bs generalizing log with
  | nil => simp [retryTrace, batcherRun]
  | cons b bs ih =>
    rw [retryTrace, List.map_cons, List.flatten_cons, batcherRun_append]
    rw [show (bs.map retryOps).flatten = retryTrace bs from rfl]
    rw [retryOps_run, ih, List.filter_cons]
    cases hb : b.isEmpty <;> simp [hb]

theorem flatten_filter_nonempty (bs : List (List α)) :
    (bs.filter (fun b => !b.isEmpty)).flatten = bs.flatten := by
  induction bs with
  | nil => rfl
  | cons b bs ih =>
    rw [List.filter_cons]
    cases hb : b.isEmpty
    · simp [ih]
    · have : b = [] := List.isEmpty_iff.mp hb
      simp [this, ih]

/-- C7 counterexample: in the first recorder script's fetch fallback, a
delivery rejected by the server (resolved response, not ok) is neither
requeued nor delivered — the batch [1] is simply gone, so the claimed
unconditional prepend-on-failure (and hence "no event is lost") fails. -/
theorem v1_reject_drop_cex :
    sendEventsV1 [(1 : Nat)] (V1Outcome.fetchResponse false) = [] ∧
    v1Delivered (V1Outcome.fetchResponse false) = false ∧
    sendEventsV1 [(1 : Nat)] (V1Outcome.fetchResponse false) ≠ [1] :=
  ⟨rfl, rfl, fun h => List.noConfusion h⟩

/-- C7 amended: for every failure the client observes (a failed in-flight
send in the v2 recorder, a refused beacon hand-off or a fetch network error
in the v1 recorder) the whole batch is prepended back in original order and
nothing reaches the server log; and when every batch fails exactly once and
then succeeds, the delivered log is exactly the recorded batches in order,
with no loss and no reordering.  (The v1 recorder's fetch fallback does not
requeue a delivery the server rejected; see the counterexample.) -/
theorem at_least_once_requeue {α : Type} :
    (∀ (s : BatcherState α) (i : Nat) (b : List α), s.inflight[i]? = some b →
      (batcherStep s (.complete i false)).queue = b ++ s.queue ∧
      (batcherStep s (.complete i false)).log = s.log) ∧
    (∀ q : List α, sendEventsV1 q V1Outcome.beaconRefused = q ∧
      sendEventsV1 q V1Outcome.fetchNetError = q) ∧
    (∀ bs : List (List α),
      (batcherRun (batcherInit : BatcherState α) (retryTrace bs)).log.flatten = bs.flatten ∧
      (batcherRun (batcherInit : BatcherState α) (retryTrace bs)).queue = [] ∧
      (batcherRun (batcherInit : BatcherState α) (retryTrace bs)).inflight = []) := by
  refine ⟨?_, ?_, ?_⟩
  · intro s i b h
    simp [batcherStep, h]
  · intro q
    by_cases hq : q.isEmpty
    · have : q = [] := List.isEmpty_iff.mp hq
      subst this
      exact ⟨rfl, rfl⟩
    · simp [sendEventsV1, hq]
  · intro bs
    rw [show (batcherInit : BatcherState α) = ⟨[], [], []⟩ from rfl, retryTrace_run]
    exact ⟨by simp [flatten_filter_nonempty], rfl, rfl⟩

/-- Witness for C7's amended statement at concrete inputs. -/
theorem at_least_once_requeue_witness :
    (batcherStep (⟨[9], [[7]], []⟩ : BatcherState Nat) (.complete 0 false)).queue = [7] ++ [9] ∧
    sendEventsV1 [(4 : Nat)] V1Outcome.fetchNetError = [4] ∧
    (batcherRun (batcherInit : BatcherState Nat) (retryTrace [[1, 2], [3]])).log.flatten =
      [[1, 2], [3]].flatten :=
  ⟨(at_least_once_requeue.1 ⟨[9], [[7]], []⟩ 0 [7] rfl).1,
   (at_least_once_requeue.2.1 [4]).2,
   (at_least_once_requeue.2.2 [[1, 2], [3]]).1⟩

/-- A DOM node inside a full-snapshot payload with a numeric type but no id
field. -/
def badNode : Json := Json.obj [("type", Json.num 1)]

/-- A well-formed full-snapshot event whose payload tree contains badNode as
a child. -/
def fullSnapEv : Json :=
  Json.obj [("type", Json.num 2), ("timestamp", Json.num 100),
    ("data", Json.obj [("node",
      Json.obj [("id", Json.num 1), ("type", Json.num 0),
        ("childNodes", Json.arr [badNode])])])]

/-- C8 counterexample: the sanitized output of a stream whose full snapshot
contains a node lacking an id is the stream unchanged — the id-less node is
still present, with its position in the tree, in the payload handed to the
player; no node-level exclusion happens. -/
theorem node_pruning_cex :
    playerInit [fullSnapEv] = PlayResult.play [fullSnapEv] ∧
    ((fullSnapEv.get "data").bind (fun d => d.get "node")).bind
      (fun n => n.get "childNodes") = some (Json.arr [badNode]) ∧
    badNode.get "id" = none :=
  ⟨rfl, rfl, rfl⟩

/-- C8 amended: sanitization acts only at whole-event granularity — the
events handed to the player are exactly the input events that are truthy
with numeric type and timestamp, each passed through verbatim (a sublist of
the input), so no DOM node inside any payload is validated, altered or
pruned; sibling events are unaffected. -/
theorem sanitizer_event_level_only (snaps : List Json)
    (h : hasFullSnapshot snaps = true) :
    ∃ evs, playerInit snaps = PlayResult.play evs ∧
      evs.Sublist snaps ∧
      (∀ e ∈ snaps,
        (jsTruthy e && isNum (e.get "type") && isNum (e.get "timestamp")) = true →
        e ∈ evs) ∧
      (∀ e ∈ evs,
        (jsTruthy e && isNum (e.get "type") && isNum (e.get "timestamp")) = true) := by
  refine ⟨validEvents snaps, by simp [playerInit, h], List.filter_sublist _, ?_, ?_⟩
  · intro e he hp
    exact List.mem_filter.mpr ⟨he, hp⟩
  · intro e he
    exact (List.mem_filter.mp he).2

/-- Witness for C8's amended statement on a concrete stream containing the
id-less node. -/
theorem sanitizer_event_level_only_witness :
    hasFullSnapshot [fullSnapEv, Json.num 3] = true ∧
    ∃ evs, playerInit [fullSnapEv, Json.num 3] = PlayResult.play evs ∧
      evs.Sublist [fullSnapEv, Json.num 3] ∧
      (∀ e ∈ [fullSnapEv, Json.num 3],
        (jsTruthy e && isNum (e.get "type") && isNum (e.get "timestamp")) = true →
        e ∈ evs) ∧
      (∀ e ∈ evs,
        (jsTruthy e && isNum (e.get "type") && isNum (e.get "timestamp")) = true) :=
  ⟨rfl, sanitizer_event_level_only [fullSnapEv, Json.num 3] rfl⟩

/-- C9: the player-initialization check reports the distinct incomplete
condition exactly when the stream holds no truthy event of type 2 (full
snapshot); with such an event present it proceeds to play the filtered
stream, so absence of a full snapshot is a terminal condition, not an
exception or a general load error. -/
theorem playability_incomplete_iff (snaps : List Json) :
    playerInit snaps = PlayResult.incomplete ↔
      ¬ ∃ e, e ∈ snaps ∧ (jsTruthy e && isType2 e) = true := by
  by_cases h : hasFullSnapshot snaps
  · obtain ⟨e, he, hp⟩ := List.any_eq_true.mp h
    simp only [playerInit, h, if_true]
    constructor
    · intro hcontra
      exact PlayResult.noConfusion hcontra
    · intro hno
      exact absurd ⟨e, he, hp⟩ hno
  · simp only [playerInit, h, if_false]
    constructor
    · intro _ hex
      exact h (List.any_eq_true.mpr hex)
    · intro _
      rfl
